import Mathlib

/-!
Shallow embedding of the Anvil reinforcement-learning harness, covering the
critic update engine (`anvil/updaters/critics.py`) and the training
orchestrators (`anvilrl/agents/base_agents.py`).

Numeric tensors are embedded per element over `ℚ`: every tensor operation the
embedded code performs (`+`, `*`, `T.min`, the soft-Q target formula) acts
elementwise, so a batch property holds exactly when the per-element property
holds at each index.  A critic network is embedded as its mathematical
function `ℚ → ℚ → ℚ` of (observation, action); the optional attributes
`critic2`, `target_critic`, `target_critic2` that the Python code probes with
`hasattr` become `Option` fields.  A Python `AttributeError` (reading an
attribute that is absent) is embedded as the result `none`.
-/

namespace Anvil

/-- An actor-critic model as seen by `SoftQRegression.__call__`: the live
critic is always present (`model.critic`), while the live twin critic and the
target critics are optional attributes probed with `hasattr`. -/
structure ACModel where
  critic : ℚ → ℚ → ℚ
  critic2 : Option (ℚ → ℚ → ℚ)
  target_critic : Option (ℚ → ℚ → ℚ)
  target_critic2 : Option (ℚ → ℚ → ℚ)

/-- Modelled from the spec: `soft_q_target` lives in
`anvil/signal_processing/sample_estimators.py`, which is not among the
sources; per the spec the bootstrapped target is
`target = reward + γ · (1 − done) · (Q_next − α · log_prob)`, elementwise. -/
def soft_q_target (reward done q_value log_prob alpha gamma : ℚ) : ℚ :=
  reward + gamma * (1 - done) * (q_value - alpha * log_prob)

/-- The next-state Q-value selection of `SoftQRegression.__call__`
(critics.py lines 193–201), per batch element: if the model has a
`target_critic` attribute, branch on the presence of the live twin `critic2`;
the double branch reads `target_critic2` (an `AttributeError`, i.e. `none`,
when that attribute is missing) and takes the elementwise minimum; otherwise
the single target critic is used; with no target network at all, the live
critic. -/
def qNext (m : ACModel) (next_obs next_act : ℚ) : Option ℚ :=
  match m.target_critic with
  | some tc =>
    match m.critic2 with
    | some _ =>
      match m.target_critic2 with
      | some tc2 => some (min (tc next_obs next_act) (tc2 next_obs next_act))
      | none => none
    | none => some (tc next_obs next_act)
  | none => some (m.critic next_obs next_act)

/-- The regression target computed by `SoftQRegression.__call__`
(critics.py lines 193–205), per batch element: the selected next-state
Q-value fed into `soft_q_target` together with the sampled next action's
log-probability. -/
def softQRegressionTarget
    (m : ACModel) (next_obs next_act reward done log_prob alpha gamma : ℚ) :
    Option ℚ :=
  (qNext m next_obs next_act).map
    (fun q => soft_q_target reward done q log_prob alpha gamma)

/-- Parameter collections of the model alternatives accepted by the critic
updaters: a bare `Critic`, or a composite `ActorCritic` with actor
parameters, critic parameters, optionally a twin critic's parameters, and
the target networks' parameters.  Parameters are identified by `Nat` ids;
`parameters()` collections are embedded as lists (modelled from the spec's
interface, the model classes are external to the sources). -/
inductive CriticTopology where
  | critic (params : List Nat)
  | actorCritic (actor_params critic_params : List Nat)
      (critic2_params : Option (List Nat)) (target_params : List Nat)

/-- `BaseCriticUpdater._get_model_parameters` (critics.py lines 32–42): all
parameters for a bare `Critic`; for a composite model the critic's
parameters, extended with the twin critic's parameters when the `critic2`
attribute exists. -/
def get_model_parameters : CriticTopology → List Nat
  | .critic ps => ps
  | .actorCritic _ cps c2ps _ => cps ++ c2ps.getD []

/-- One optimizer update applied to a parameter store: only the selected
parameters (the ones handed to the optimizer) change; every other parameter
keeps its value.  This is the frame guarantee of handing `optimizer_class`
exactly `critic_parameters` in the updaters' `__call__`. -/
def run_update (selected : List Nat) (upd : Nat → ℚ) (store : Nat → ℚ) :
    Nat → ℚ :=
  fun p => if p ∈ selected then upd p else store p

/-- The observable operations of `BaseCriticUpdater.run_optimizer`. -/
inductive OptOp where
  | zero_grad
  | backward
  | clip
  | stepOp
deriving DecidableEq, Repr

/-- Optimizer state for `run_optimizer`: the (one-parameter) gradient, the
parameter value, and the trace of operations performed so far.  The gradient
"norm" of a single parameter is its absolute value. -/
structure OptimState where
  grad : ℚ
  param : ℚ
  trace : List OptOp

/-- `optimizer.zero_grad()`: clears the gradient. -/
def zeroGradOp (s : OptimState) : OptimState :=
  { s with grad := 0, trace := s.trace ++ [OptOp.zero_grad] }

/-- `loss.backward()`: accumulates the backpropagated gradient `g` onto the
(cleared) gradient buffer. -/
def backwardOp (g : ℚ) (s : OptimState) : OptimState :=
  { s with grad := s.grad + g, trace := s.trace ++ [OptOp.backward] }

/-- `T.nn.utils.clip_grad_norm_(params, max_grad)` on one parameter: when
the gradient norm exceeds `max_grad`, rescale it to norm `max_grad`. -/
def clipOp (max_grad : ℚ) (s : OptimState) : OptimState :=
  { s with
    grad := if max_grad < |s.grad| then max_grad * (if s.grad < 0 then -1 else 1) else s.grad,
    trace := s.trace ++ [OptOp.clip] }

/-- `optimizer.step()`: applies the abstract parameter update rule `f` to the
current parameter and gradient. -/
def stepApplyOp (f : ℚ → ℚ → ℚ) (s : OptimState) : OptimState :=
  { s with param := f s.param s.grad, trace := s.trace ++ [OptOp.stepOp] }

/-- `BaseCriticUpdater.run_optimizer` (critics.py lines 44–55): clear the
gradients, backpropagate the loss gradient `g`, clip only when
`self.max_grad > 0`, then step. -/
def run_optimizer (max_grad : ℚ) (g : ℚ) (f : ℚ → ℚ → ℚ) (s : OptimState) :
    OptimState :=
  let s1 := zeroGradOp s
  let s2 := backwardOp g s1
  let s3 := if 0 < max_grad then clipOp max_grad s2 else s2
  stepApplyOp f s3

/-! ## Training orchestrator (`anvilrl/agents/base_agents.py`)

The environment, buffer, explorer and logger are external collaborators; the
orchestrator consumes from the environment only the done mask of each
interaction and from the callbacks only the boolean conjunction of their
`on_step` results.  A `Script` records those externally supplied answers:
`envDones k` is the done mask returned by `env.step` at the `k`-th
environment interaction of the run, and `callbacks` is `none` when the agent
was constructed with `callbacks=None`, otherwise the conjunction
`all(callback.on_step(step) for ...)` as a function of `self.step`.
Observations, actions and rewards do not influence any control decision of
the orchestrator and are abstracted away. -/

/-- External answers driving one orchestrator run. -/
structure Script where
  envDones : Nat → List Bool
  callbacks : Option (Nat → Bool)

/-- Orchestrator state of a `BaseDeepAgent`: the `step` and `episode`
counters, the termination flag `done`, the logger's per-environment
`episode_dones` mask, instrumentation counters for the number of
`logger.write_log` / `logger.reset_episode_log` / `_fit` invocations, and the
total number of environment interactions performed (also the index into the
script). -/
structure AgentState where
  step : Nat
  episode : Nat
  done : Bool
  episode_dones : List Bool
  writeCount : Nat
  resetCount : Nat
  fitCount : Nat
  interactions : Nat
deriving DecidableEq, Repr

/-- The fresh state of an agent at construction (`step = 0`, `episode = 0`,
`done = False`, logger mask all-false over `numEnvs` parallel
environments). -/
def initState (numEnvs : Nat) : AgentState :=
  { step := 0, episode := 0, done := false,
    episode_dones := List.replicate numEnvs false,
    writeCount := 0, resetCount := 0, fitCount := 0, interactions := 0 }

/-- One iteration of the `for` loop in `BaseDeepAgent.step_env`
(base_agents.py lines 129–167).  Returns the successor state and whether the
loop `break`s (callback veto).  `env.step` yields the scripted done mask;
`episode_dones[done_indices] = True` is the elementwise or of the mask with
the done batch; a full mask triggers `write_log`, `reset_episode_log`
(modelled from the spec: resetting the episode log clears the mask to
all-false) and the episode increment; the callback check runs afterwards,
and the step counter is incremented only when no callback vetoes. -/
def stepEnvOnce (sc : Script) (s : AgentState) : AgentState × Bool :=
  let dMask := sc.envDones s.interactions
  let s1 := { s with interactions := s.interactions + 1 }
  let mask1 := List.zipWith (fun m d => m || d) s1.episode_dones dMask
  let s2 :=
    if mask1.all (fun b => b) then
      { s1 with episode_dones := List.replicate mask1.length false,
                writeCount := s1.writeCount + 1,
                resetCount := s1.resetCount + 1,
                episode := s1.episode + 1 }
    else
      { s1 with episode_dones := mask1 }
  match sc.callbacks with
  | some cb =>
    if cb s2.step then ({ s2 with step := s2.step + 1 }, false)
    else ({ s2 with done := true }, true)
  | none => ({ s2 with step := s2.step + 1 }, false)

/-- `BaseDeepAgent.step_env(observation, num_steps)`: `num_steps` iterations
of `stepEnvOnce`, stopping early on a callback veto. -/
def step_env (sc : Script) (s : AgentState) : Nat → AgentState
  | 0 => s
  | n + 1 =>
    let r := stepEnvOnce sc s
    if r.2 then r.1 else step_env sc r.1 n

/-- Train frequency after normalization (base_agents.py lines 202–205): a
`("step", n)` or `("episode", n)` pair. -/
inductive TF where
  | stepFreq (n : Nat)
  | episodeFreq (n : Nat)

/-- The `while self.episode != end_episode: step_env()` wait of the
episode-cadence branch (base_agents.py lines 226–227), with explicit fuel;
the returned flag tells whether the loop exited because the episode counter
reached `target` (as opposed to running out of fuel). -/
def episodeWait (sc : Script) (target : Nat) : Nat → AgentState → AgentState × Bool
  | 0, s => (s, s.episode == target)
  | f + 1, s =>
    if s.episode == target then (s, true)
    else episodeWait sc target f (step_env sc s 1)

/-- One iteration of the `for step in range(num_steps)` loop of
`BaseDeepAgent.fit` (base_agents.py lines 211–241): the interaction phase is
`step_env(batch_size)` on the very first iteration, otherwise
`step_env(n)` for step cadence, otherwise the episode wait followed by the
`self.step >= num_steps` budget break; then the `self.done` break; then
`model.train()` and `_fit` (counted in `fitCount`).  Returns the state and
whether the loop `break`s. -/
def fitIter (sc : Script) (batch_size : Nat) (tf : TF) (budget fuel : Nat)
    (loopIdx : Nat) (s : AgentState) : AgentState × Bool :=
  let phase : AgentState × Bool :=
    if loopIdx = 0 then (step_env sc s batch_size, false)
    else
      match tf with
      | .stepFreq n => (step_env sc s n, false)
      | .episodeFreq n =>
        let w := episodeWait sc (s.episode + n) fuel s
        (w.1, decide (budget ≤ w.1.step))
  if phase.2 then (phase.1, true)
  else if phase.1.done then (phase.1, true)
  else ({ phase.1 with fitCount := phase.1.fitCount + 1 }, false)

/-- The `for step in range(num_steps)` loop of `BaseDeepAgent.fit`, given
the loop index and the remaining number of iterations. -/
def fitLoop (sc : Script) (batch_size : Nat) (tf : TF) (budget fuel : Nat) :
    Nat → Nat → AgentState → AgentState
  | _, 0, s => s
  | loopIdx, rem + 1, s =>
    let r := fitIter sc batch_size tf budget fuel loopIdx s
    if r.2 then r.1 else fitLoop sc batch_size tf budget fuel (loopIdx + 1) rem r.1

/-- `BaseDeepAgent.fit(num_steps, batch_size, train_frequency)`
(base_agents.py lines 183–241): for step cadence the iteration count (and
the variable `num_steps`) is pre-divided by the per-cycle step count; the
loop then runs with that bound both as iteration count and as the step
budget consulted by the episode-cadence break. -/
def fit (sc : Script) (num_steps batch_size : Nat) (tf : TF) (fuel : Nat)
    (s : AgentState) : AgentState :=
  let ns := match tf with
    | .stepFreq n => num_steps / n
    | .episodeFreq _ => num_steps
  fitLoop sc batch_size tf ns fuel 0 ns s

/-! ## Evolution orchestrator (`BaseEvolutionAgent`) -/

/-- Orchestrator state of a `BaseEvolutionAgent`: `step` and `episode`
counters, the `done` flag written by its `step_env` (nothing in the class
ever reads it), the number of `evaluate_agent` and `_fit` invocations, and
the number of environment interactions. -/
structure EvoState where
  step : Nat
  episode : Nat
  done : Bool
  evalCount : Nat
  fitCount : Nat
  interactions : Nat
deriving DecidableEq, Repr

/-- The state of a freshly constructed `BaseEvolutionAgent` (`step = 0`,
`episode = 0`; the `done` attribute is first assigned only inside
`step_env`, before that nothing reads it — embedded as starting `false`). -/
def evoInitState : EvoState :=
  { step := 0, episode := 0, done := false,
    evalCount := 0, fitCount := 0, interactions := 0 }

/-- One iteration of the `for` loop in `BaseEvolutionAgent.step_env`
(base_agents.py lines 317–332): step the environment with the population,
record the trajectory, then the callback check — a veto sets `done := true`
and `break`s before the step counter increments. -/
def evoStepEnvOnce (sc : Script) (s : EvoState) : EvoState × Bool :=
  let s1 := { s with interactions := s.interactions + 1 }
  match sc.callbacks with
  | some cb =>
    if cb s1.step then ({ s1 with step := s1.step + 1 }, false)
    else ({ s1 with done := true }, true)
  | none => ({ s1 with step := s1.step + 1 }, false)

/-- `BaseEvolutionAgent.step_env(num_steps)`. -/
def evoStepEnv (sc : Script) (s : EvoState) : Nat → EvoState
  | 0 => s
  | n + 1 =>
    let r := evoStepEnvOnce sc s
    if r.2 then r.1 else evoStepEnv sc r.1 n

/-- The `while self.episode != end_episode` wait of
`BaseEvolutionAgent.fit` (base_agents.py lines 392–393), with fuel. -/
def evoEpisodeWait (sc : Script) (target : Nat) : Nat → EvoState → EvoState × Bool
  | 0, s => (s, s.episode == target)
  | f + 1, s =>
    if s.episode == target then (s, true)
    else evoEpisodeWait sc target f (evoStepEnv sc s 1)

/-- One iteration of the `for _ in range(num_steps)` loop of
`BaseEvolutionAgent.fit` (base_agents.py lines 384–400): the interaction
phase (no warmup), for episode cadence the `self.step >= num_steps` break,
then unconditionally `evaluate_agent()` and `_fit()` — the loop performs no
check of the `done` flag. -/
def evoFitIter (sc : Script) (tf : TF) (budget fuel : Nat) (s : EvoState) :
    EvoState × Bool :=
  let phase : EvoState × Bool :=
    match tf with
    | .stepFreq n => (evoStepEnv sc s n, false)
    | .episodeFreq n =>
      let w := evoEpisodeWait sc (s.episode + n) fuel s
      (w.1, decide (budget ≤ w.1.step))
  if phase.2 then (phase.1, true)
  else
    ({ phase.1 with evalCount := phase.1.evalCount + 1,
                    fitCount := phase.1.fitCount + 1 }, false)

/-- The main loop of `BaseEvolutionAgent.fit`. -/
def evoFitLoop (sc : Script) (tf : TF) (budget fuel : Nat) :
    Nat → EvoState → EvoState
  | 0, s => s
  | rem + 1, s =>
    let r := evoFitIter sc tf budget fuel s
    if r.2 then r.1 else evoFitLoop sc tf budget fuel rem r.1

/-- `BaseEvolutionAgent.fit(num_steps, train_frequency)` (base_agents.py
lines 352–400): step cadence pre-divides `num_steps`; population
initialization is external and does not touch the counters. -/
def evoFit (sc : Script) (num_steps : Nat) (tf : TF) (fuel : Nat)
    (s : EvoState) : EvoState :=
  let ns := match tf with
    | .stepFreq n => num_steps / n
    | .episodeFreq _ => num_steps
  evoFitLoop sc tf ns fuel ns s

/-! ## Concrete models and scripts used as witnesses and counterexamples -/

/-- A model with only a live critic (no twin, no target networks). -/
def mPlain : ACModel :=
  { critic := fun o _ => o, critic2 := none,
    target_critic := none, target_critic2 := none }

/-- A model with a pair of target critics but no live twin `critic2`. -/
def mTargetsOnly : ACModel :=
  { critic := fun _ _ => 7, critic2 := none,
    target_critic := some (fun _ _ => 5), target_critic2 := some (fun _ _ => 3) }

/-- A model with a live twin `critic2` and a `target_critic`, but missing the
`target_critic2` attribute. -/
def mBroken : ACModel :=
  { critic := fun _ _ => 7, critic2 := some (fun _ _ => 8),
    target_critic := some (fun _ _ => 5), target_critic2 := none }

/-- A full twin model: live twin plus both target critics. -/
def mTwin : ACModel :=
  { critic := fun _ _ => 7, critic2 := some (fun _ _ => 8),
    target_critic := some (fun _ _ => 5), target_critic2 := some (fun _ _ => 3) }

/-- No registered callback ever vetoes: either the agent was constructed
with `callbacks=None`, or every `on_step` conjunction is true. -/
def noVeto (sc : Script) : Prop :=
  ∀ cb, sc.callbacks = some cb → ∀ t, cb t = true

/-- No callback vetoes at any step below `bound`. -/
def noVetoBelow (sc : Script) (bound : Nat) : Prop :=
  ∀ cb, sc.callbacks = some cb → ∀ t, t < bound → cb t = true

/-- A single (non-vectorized) environment whose episodes terminate after
exactly 3 steps, with no callbacks. -/
def scThreeStep : Script :=
  { envDones := fun k => [decide ((k + 1) % 3 = 0)], callbacks := none }

/-- A vetoing run: the callback conjunction is false at every step. -/
def scVeto : Script :=
  { envDones := fun _ => [true], callbacks := some (fun _ => false) }

/-- A single-environment script with no callbacks and never-done episodes. -/
def scFree : Script :=
  { envDones := fun _ => [false], callbacks := none }

/-! ## Supporting lemmas -/

/-- `stepEnvOnce` never touches the `_fit` counter. -/
theorem stepEnvOnce_fitCount (sc : Script) (s : AgentState) :
    (stepEnvOnce sc s).1.fitCount = s.fitCount := by
  unfold stepEnvOnce
  rcases hcb : sc.callbacks with _ | cb
  · by_cases h : (List.zipWith (fun m d => m || d) s.episode_dones
      (sc.envDones s.interactions)).all (fun b => b) <;> simp [hcb, h]
  · by_cases h : (List.zipWith (fun m d => m || d) s.episode_dones
      (sc.envDones s.interactions)).all (fun b => b) <;>
      simp [hcb, h] <;> split <;> rfl

/-- When the callbacks do not veto at the current step, one `step_env`
iteration does not break, performs one interaction, increments the step
counter, and preserves the termination flag and the `_fit` counter. -/
theorem stepEnvOnce_no_veto (sc : Script) (s : AgentState)
    (h : ∀ cb, sc.callbacks = some cb → cb s.step = true) :
    (stepEnvOnce sc s).2 = false
    ∧ (stepEnvOnce sc s).1.step = s.step + 1
    ∧ (stepEnvOnce sc s).1.interactions = s.interactions + 1
    ∧ (stepEnvOnce sc s).1.done = s.done
    ∧ (stepEnvOnce sc s).1.fitCount = s.fitCount := by
  unfold stepEnvOnce
  rcases hcb : sc.callbacks with _ | cb
  · by_cases hm : (List.zipWith (fun m d => m || d) s.episode_dones
      (sc.envDones s.interactions)).all (fun b => b) <;> simp [hcb, hm]
  · have hc := h cb hcb
    by_cases hm : (List.zipWith (fun m d => m || d) s.episode_dones
      (sc.envDones s.interactions)).all (fun b => b) <;> simp [hcb, hm, hc]

/-- Under a global no-veto script, `step_env` performs exactly `n`
interactions and increments the step counter by `n`. -/
theorem step_env_no_veto (sc : Script) (hnv : noVeto sc) (n : Nat) (s : AgentState) :
    (step_env sc s n).step = s.step + n
    ∧ (step_env sc s n).interactions = s.interactions + n
    ∧ (step_env sc s n).done = s.done
    ∧ (step_env sc s n).fitCount = s.fitCount := by
  induction n generalizing s with
  | zero => simp [step_env]
  | succ k ih =>
    have h1 := stepEnvOnce_no_veto sc s (fun cb hcb => hnv cb hcb s.step)
    obtain ⟨hb, hs, hi, hd, hf⟩ := h1
    have ih1 := ih (stepEnvOnce sc s).1
    simp only [step_env, hb, Bool.false_eq_true, if_false]
    refine ⟨?_, ?_, ?_, ?_⟩
    · rw [ih1.1, hs]; omega
    · rw [ih1.2.1, hi]; omega
    · rw [ih1.2.2.1, hd]
    · rw [ih1.2.2.2, hf]

/-- `step_env` never touches the `_fit` counter, veto or not. -/
theorem step_env_fitCount (sc : Script) (n : Nat) (s : AgentState) :
    (step_env sc s n).fitCount = s.fitCount := by
  induction n generalizing s with
  | zero => rfl
  | succ k ih =>
    simp only [step_env]
    split
    · exact stepEnvOnce_fitCount sc s
    · rw [ih, stepEnvOnce_fitCount]

/-- The episode wait exits with the completion flag set exactly when the
episode counter has reached the target. -/
theorem episodeWait_completed (sc : Script) (target f : Nat) (s : AgentState)
    (h : (episodeWait sc target f s).2 = true) :
    (episodeWait sc target f s).1.episode = target := by
  induction f generalizing s with
  | zero =>
    simp only [episodeWait] at h ⊢
    simpa using h
  | succ k ih =>
    simp only [episodeWait] at h ⊢
    by_cases he : s.episode == target
    · rw [if_pos he]
      simpa using he
    · rw [if_neg he] at h ⊢
      exact ih _ h

/-- No `_fit` call happens during the episode wait. -/
theorem episodeWait_fitCount (sc : Script) (target f : Nat) (s : AgentState) :
    (episodeWait sc target f s).1.fitCount = s.fitCount := by
  induction f generalizing s with
  | zero => rfl
  | succ k ih =>
    simp only [episodeWait]
    by_cases he : s.episode == target
    · simp [he]
    · rw [if_neg he, ih, step_env_fitCount]

/-- A non-first iteration of the step-cadence `fit` loop under a no-veto
script: no break, one `_fit`, exactly `n` interactions. -/
theorem fitIter_step_no_veto (sc : Script) (hnv : noVeto sc)
    (B n budget fuel idx : Nat) (hidx : idx ≠ 0) (s : AgentState)
    (hd : s.done = false) :
    (fitIter sc B (TF.stepFreq n) budget fuel idx s).2 = false
    ∧ (fitIter sc B (TF.stepFreq n) budget fuel idx s).1.fitCount = s.fitCount + 1
    ∧ (fitIter sc B (TF.stepFreq n) budget fuel idx s).1.interactions = s.interactions + n
    ∧ (fitIter sc B (TF.stepFreq n) budget fuel idx s).1.step = s.step + n
    ∧ (fitIter sc B (TF.stepFreq n) budget fuel idx s).1.done = false := by
  have h := step_env_no_veto sc hnv n s
  unfold fitIter
  simp only [hidx, if_false, if_neg hidx]
  simp [h.1, h.2.1, h.2.2.1, h.2.2.2, hd]

/-- The step-cadence `fit` loop from a non-zero loop index under a no-veto
script runs all remaining iterations, one `_fit` and `n` interactions
each. -/
theorem fitLoop_step_no_veto (sc : Script) (hnv : noVeto sc)
    (B n budget fuel : Nat) (rem : Nat) (idx : Nat) (hidx : idx ≠ 0)
    (s : AgentState) (hd : s.done = false) :
    (fitLoop sc B (TF.stepFreq n) budget fuel idx rem s).fitCount = s.fitCount + rem
    ∧ (fitLoop sc B (TF.stepFreq n) budget fuel idx rem s).interactions
        = s.interactions + rem * n := by
  induction rem generalizing idx s with
  | zero => simp [fitLoop]
  | succ k ih =>
    have h := fitIter_step_no_veto sc hnv B n budget fuel idx hidx s hd
    simp only [fitLoop, h.1, Bool.false_eq_true, if_false]
    have ih1 := ih (idx + 1) (Nat.succ_ne_zero idx)
      (fitIter sc B (TF.stepFreq n) budget fuel idx s).1 h.2.2.2.2
    refine ⟨?_, ?_⟩
    · rw [ih1.1, h.2.1]; omega
    · rw [ih1.2, h.2.2.1]; ring_nf

/-! ## Claim theorems -/

/-- C1: the soft-Q regression target computed by `SoftQRegression.__call__`
equals `r + γ·(1−d)·(Q_next − α·logp)` elementwise, for every reward, done
flag, next-state Q-value, log-probability, entropy temperature α and
discount γ; in particular, every entry with `d = 1` has target exactly equal
to the reward. -/
theorem softQ_target_formula (m : ACModel) (o a r d lp al ga q : ℚ)
    (hq : qNext m o a = some q) :
    softQRegressionTarget m o a r d lp al ga
      = some (r + ga * (1 - d) * (q - al * lp))
    ∧ softQRegressionTarget m o a r 1 lp al ga = some r := by
  constructor
  · simp [softQRegressionTarget, hq, soft_q_target]
  · simp [softQRegressionTarget, hq, soft_q_target]

/-- Witness for C1 at a concrete model with no target networks: with
`Q_next = 2`, reward 7, the target follows the formula, and with `done = 1`
the target is exactly the reward 7 for α = 2, γ = 3. -/
theorem softQ_target_formula_witness :
    softQRegressionTarget mPlain 2 3 7 0 1 2 3
      = some (7 + 3 * (1 - 0) * (2 - 2 * 1))
    ∧ softQRegressionTarget mPlain 2 3 7 1 1 2 3 = some 7 :=
  softQ_target_formula mPlain 2 3 7 0 1 2 3 2 rfl

/-- C2 counterexample: `mTargetsOnly` has a pair of target critics (outputs
5 and 3) but no live twin `critic2`; with reward 0, done 0, log-prob 0,
α = 0, γ = 1 the code's target is the single target critic's 5, not
`min 5 3 = 3` as the claimed priority order requires. -/
theorem softQ_pair_without_twin_not_min :
    softQRegressionTarget mTargetsOnly 0 0 0 0 0 0 1 = some 5
    ∧ softQRegressionTarget mTargetsOnly 0 0 0 0 0 0 1 ≠ some (min (5 : ℚ) 3) := by
  have h5 : softQRegressionTarget mTargetsOnly 0 0 0 0 0 0 1 = some 5 := by
    simp [softQRegressionTarget, qNext, mTargetsOnly, soft_q_target]
  refine ⟨h5, ?_⟩
  rw [h5]
  intro h
  have h2 : (5 : ℚ) = min 5 3 := Option.some.inj h
  norm_num at h2

/-- C2 amended: the branch between the double- and single-target-critic
evaluation is taken on the presence of the live twin `critic2`.  When
`critic2` and both `target_critic`/`target_critic2` are present, the target
uses the elementwise minimum of the two target critics (the smaller, never
the average); with `target_critic` present and `critic2` absent, the single
target critic; with `critic2` present but `target_critic2` missing, the call
fails; with no target network, the live critic. -/
theorem softQ_target_selection (m : ACModel) (o a r d lp al ga : ℚ) :
    softQRegressionTarget m o a r d lp al ga =
      (match m.target_critic, m.critic2, m.target_critic2 with
       | some tc, some _, some tc2 =>
           some (r + ga * (1 - d) * (min (tc o a) (tc2 o a) - al * lp))
       | some _, some _, none => none
       | some tc, none, _ => some (r + ga * (1 - d) * (tc o a - al * lp))
       | none, _, _ => some (r + ga * (1 - d) * (m.critic o a - al * lp))) := by
  rcases m with ⟨c, c2, tc, tc2⟩
  cases tc <;> cases c2 <;> cases tc2 <;> rfl

/-- C10: with `target_critic` present, the double-target branch is selected
by testing the live twin attribute `critic2`: if `critic2` exists the code
reads `target_critic2` (failing, i.e. `none`, when that attribute is
missing) and takes the minimum; if `critic2` is absent only `target_critic`
is evaluated and no minimum is taken, whatever `target_critic2` is. -/
theorem softQ_dispatch_on_live_twin (m : ACModel) (o a : ℚ) (tc : ℚ → ℚ → ℚ)
    (htc : m.target_critic = some tc) :
    qNext m o a =
      (if m.critic2.isSome then
        m.target_critic2.map (fun tc2 => min (tc o a) (tc2 o a))
      else some (tc o a)) := by
  rcases m with ⟨c, c2, tcf, tc2f⟩
  cases htc
  cases c2 <;> cases tc2f <;> rfl

/-- Witness for C10 at `mBroken` (live twin present, `target_critic2`
missing): the call fails with `none`. -/
theorem softQ_dispatch_on_live_twin_witness :
    qNext mBroken 0 0 =
      (if mBroken.critic2.isSome then
        mBroken.target_critic2.map (fun tc2 => min ((5 : ℚ)) (tc2 0 0))
      else some 5) :=
  softQ_dispatch_on_live_twin mBroken 0 0 (fun _ _ => 5) rfl

/-- C7: `BaseCriticUpdater.run_optimizer` performs, in order: clear prior
gradients, backpropagate, clip if and only if `max_grad` is strictly
positive, then the parameter update (which consumes the post-clip gradient);
with `max_grad > 0` the post-clip gradient norm is at most `max_grad`, and
with `max_grad ≤ 0` the gradient is exactly the backpropagated value. -/
theorem run_optimizer_order_and_clip (max_grad g : ℚ) (f : ℚ → ℚ → ℚ)
    (s : OptimState) :
    (run_optimizer max_grad g f s).trace =
      s.trace ++ [OptOp.zero_grad, OptOp.backward]
        ++ (if 0 < max_grad then [OptOp.clip] else []) ++ [OptOp.stepOp]
    ∧ (run_optimizer max_grad g f s).param
        = f s.param (run_optimizer max_grad g f s).grad
    ∧ (if 0 < max_grad then |(run_optimizer max_grad g f s).grad| ≤ max_grad
       else (run_optimizer max_grad g f s).grad = g) := by
  by_cases h : 0 < max_grad
  · simp only [run_optimizer, zeroGradOp, backwardOp, clipOp, stepApplyOp, h,
      if_true, if_pos h]
    refine ⟨by simp, trivial, ?_⟩
    by_cases h2 : max_grad < |0 + g|
    · rw [if_pos h2]
      by_cases h3 : (0 : ℚ) + g < 0
      · rw [if_pos h3, mul_neg_one, abs_neg, abs_of_nonneg (le_of_lt h)]
      · rw [if_neg h3, mul_one, abs_of_nonneg (le_of_lt h)]
    · rw [if_neg h2]
      exact le_of_not_lt h2
  · simp only [run_optimizer, zeroGradOp, backwardOp, clipOp, stepApplyOp, h,
      if_false, if_neg h]
    exact ⟨by simp, trivial, by rw [zero_add]⟩

/-- C8: the parameter set handed to the optimizer by every critic updater is
all the model's parameters for a bare `Critic`, and for a composite model
exactly the critic's parameters plus the twin critic's when present; any
actor or target-network parameter (disjoint from the critic collections, as
distinct module parameters are) is never selected and is left unchanged by
the optimizer update. -/
theorem critic_updater_parameter_frame (aps cps tps : List Nat)
    (c2ps : Option (List Nat)) (p q : Nat) (upd store : Nat → ℚ)
    (hdisj : ∀ x ∈ aps ++ tps, ¬x ∈ cps ∧ ¬x ∈ c2ps.getD [])
    (hp : p ∈ aps ++ tps) :
    get_model_parameters (.critic cps) = cps
    ∧ get_model_parameters (.actorCritic aps cps c2ps tps) = cps ++ c2ps.getD []
    ∧ (q ∈ get_model_parameters (.actorCritic aps cps c2ps tps)
        ↔ q ∈ cps ∨ q ∈ c2ps.getD [])
    ∧ ¬p ∈ get_model_parameters (.actorCritic aps cps c2ps tps)
    ∧ run_update (get_model_parameters (.actorCritic aps cps c2ps tps))
        upd store p = store p := by
  have hmem : ∀ x, x ∈ get_model_parameters (.actorCritic aps cps c2ps tps)
      ↔ x ∈ cps ∨ x ∈ c2ps.getD [] := by
    intro x
    simp [get_model_parameters, List.mem_append]
  have hnp : ¬p ∈ get_model_parameters (.actorCritic aps cps c2ps tps) := by
    rw [hmem p]
    rcases hdisj p hp with ⟨h1, h2⟩
    rintro (h | h)
    · exact h1 h
    · exact h2 h
  refine ⟨rfl, rfl, hmem q, hnp, ?_⟩
  simp [run_update, hnp]

/-- Witness for C8 with actor parameters `[0]`, critic parameters `[1]`,
twin critic parameters `[2]`, target parameters `[3]`: parameter 0 (an actor
parameter) is not selected and keeps its stored value 10 under an update
writing 99. -/
theorem critic_updater_parameter_frame_witness :
    get_model_parameters (.critic [1]) = [1]
    ∧ get_model_parameters (.actorCritic [0] [1] (some [2]) [3])
        = [1] ++ (some [2]).getD []
    ∧ (2 ∈ get_model_parameters (.actorCritic [0] [1] (some [2]) [3])
        ↔ 2 ∈ [1] ∨ 2 ∈ (some [2] : Option (List Nat)).getD [])
    ∧ ¬0 ∈ get_model_parameters (.actorCritic [0] [1] (some [2]) [3])
    ∧ run_update (get_model_parameters (.actorCritic [0] [1] (some [2]) [3]))
        (fun _ => 99) (fun _ => 10) 0 = (fun _ => (10 : ℚ)) 0 :=
  critic_updater_parameter_frame [0] [1] [3] (some [2]) 0 2
    (fun _ => 99) (fun _ => 10) (by decide) (by decide)

/-- C3: after an environment interaction of `BaseDeepAgent.step_env`, the
episode log is written, the episode log is reset and the episode counter
increments by exactly 1 exactly when every entry of the updated
per-environment episode-done mask is true; otherwise none of the three
effects occurs and only the mask is updated (to the elementwise or of the
old mask with the interaction's done batch). -/
theorem episode_flush_iff_all_done (sc : Script) (s : AgentState) :
    (if (List.zipWith (fun m d => m || d) s.episode_dones
          (sc.envDones s.interactions)).all (fun b => b) then
      (stepEnvOnce sc s).1.writeCount = s.writeCount + 1
      ∧ (stepEnvOnce sc s).1.resetCount = s.resetCount + 1
      ∧ (stepEnvOnce sc s).1.episode = s.episode + 1
    else
      (stepEnvOnce sc s).1.writeCount = s.writeCount
      ∧ (stepEnvOnce sc s).1.resetCount = s.resetCount
      ∧ (stepEnvOnce sc s).1.episode = s.episode
      ∧ (stepEnvOnce sc s).1.episode_dones
          = List.zipWith (fun m d => m || d) s.episode_dones
              (sc.envDones s.interactions)) := by
  unfold stepEnvOnce
  by_cases hm : (List.zipWith (fun m d => m || d) s.episode_dones
      (sc.envDones s.interactions)).all (fun b => b) <;>
    rcases hcb : sc.callbacks with _ | cbf <;>
      simp [hm, hcb] <;> split <;> simp

/-- C4: the very first iteration of the `BaseDeepAgent.fit` loop performs
exactly `batch_size` environment interactions via `step_env` before the
first `_fit` call (the interaction phase leaves the `_fit` counter
untouched, and the iteration then runs `_fit` once), for every train
frequency, provided no callback vetoes during the warmup. -/
theorem fit_warmup_batch_size (sc : Script) (s : AgentState)
    (batch_size : Nat) (tf : TF) (budget fuel : Nat)
    (hnv : noVetoBelow sc (s.step + batch_size)) (hd : s.done = false) :
    (fitIter sc batch_size tf budget fuel 0 s).1.interactions
      = s.interactions + batch_size
    ∧ (step_env sc s batch_size).fitCount = s.fitCount
    ∧ (fitIter sc batch_size tf budget fuel 0 s).1.fitCount = s.fitCount + 1
    ∧ (fitIter sc batch_size tf budget fuel 0 s).2 = false := by
  have key : ∀ n s', s'.step + n ≤ s.step + batch_size →
      (step_env sc s' n).interactions = s'.interactions + n
      ∧ (step_env sc s' n).done = s'.done
      ∧ (step_env sc s' n).fitCount = s'.fitCount := by
    intro n
    induction n with
    | zero => intro s' _; simp [step_env]
    | succ k ih =>
      intro s' hle
      have hcb : ∀ cb, sc.callbacks = some cb → cb s'.step = true := by
        intro cb h
        exact hnv cb h s'.step (by omega)
      have h1 := stepEnvOnce_no_veto sc s' hcb
      obtain ⟨hb, hs, hi, hdn, hf⟩ := h1
      have ih1 := ih (stepEnvOnce sc s').1 (by omega)
      simp only [step_env, hb, Bool.false_eq_true, if_false]
      refine ⟨?_, ?_, ?_⟩
      · rw [ih1.1, hi]; omega
      · rw [ih1.2.1, hdn]
      · rw [ih1.2.2, hf]
  have hphase := key batch_size s (le_refl _)
  unfold fitIter
  simp only [if_pos rfl]
  simp [hphase.1, hphase.2.1, hphase.2.2, hd]

/-- Witness for C4 on a fresh single-environment agent without callbacks:
warmup with `batch_size = 2` performs 2 interactions, no `_fit` during the
phase, then one `_fit`. -/
theorem fit_warmup_batch_size_witness :
    (fitIter scFree 2 (TF.episodeFreq 1) 5 5 0 (initState 1)).1.interactions
      = (initState 1).interactions + 2
    ∧ (step_env scFree (initState 1) 2).fitCount = (initState 1).fitCount
    ∧ (fitIter scFree 2 (TF.episodeFreq 1) 5 5 0 (initState 1)).1.fitCount
        = (initState 1).fitCount + 1
    ∧ (fitIter scFree 2 (TF.episodeFreq 1) 5 5 0 (initState 1)).2 = false :=
  fit_warmup_batch_size scFree (initState 1) 2 (TF.episodeFreq 1) 5 5
    (fun _ h => nomatch h) rfl

/-- The full step-cadence loop from index 0 with `k + 1` iterations under a
no-veto script: `k + 1` many `_fit` calls, `B` warmup interactions plus `n`
per later iteration. -/
theorem fitLoop_step_total (sc : Script) (hnv : noVeto sc)
    (B n budget fuel k : Nat) (s : AgentState) (hd : s.done = false) :
    (fitLoop sc B (TF.stepFreq n) budget fuel 0 (k + 1) s).fitCount
      = s.fitCount + (k + 1)
    ∧ (fitLoop sc B (TF.stepFreq n) budget fuel 0 (k + 1) s).interactions
      = s.interactions + B + k * n := by
  have hnvb : noVetoBelow sc (s.step + B) := fun cb h t' _ => hnv cb h t'
  have h0 := fit_warmup_batch_size sc s B (TF.stepFreq n) budget fuel hnvb hd
  have hdone0 : (fitIter sc B (TF.stepFreq n) budget fuel 0 s).1.done
      = false := by
    unfold fitIter
    simp only [if_pos rfl]
    have hse := step_env_no_veto sc hnv B s
    have hb : (step_env sc s B).done = false := by rw [hse.2.2.1, hd]
    simp [hb]
  simp only [fitLoop, h0.2.2.2, Bool.false_eq_true, if_false]
  have hrest := fitLoop_step_no_veto sc hnv B n budget fuel k 1
    (by omega) (fitIter sc B (TF.stepFreq n) budget fuel 0 s).1 hdone0
  constructor
  · rw [hrest.1, h0.2.2.1]; omega
  · rw [hrest.2, h0.1]

/-- C5: with `("step", n)` cadence and no vetoes, `BaseDeepAgent.fit` runs
`num_steps / n` loop iterations (one `_fit` each) and every iteration after
the first performs exactly `n` interactions (total interactions
`batch_size + (num_steps/n − 1)·n`); with `("episode", n)` cadence the
episode wait triggers no `_fit` and, when it completes, leaves the episode
counter exactly at its target — an iteration whose wait completes inside the
budget (flag still false) runs exactly one `_fit` with the episode counter
advanced by exactly `n`, while an iteration whose wait ends with the step
counter at or beyond the global budget breaks out of the loop without a
training step. -/
theorem fit_cadence (sc : Script) (s s' s'' : AgentState)
    (B n ns1 ns2 ns3 t f fuel idx : Nat)
    (hnv : noVeto sc) (hd : s.done = false) (hidx : idx ≠ 0)
    (hq : 1 ≤ ns1 / n)
    (hw : (episodeWait sc t f s').2 = true)
    (hbud : ns2 ≤ (episodeWait sc (s'.episode + n) fuel s').1.step)
    (hw2 : (episodeWait sc (s''.episode + n) fuel s'').2 = true)
    (hnb : (episodeWait sc (s''.episode + n) fuel s'').1.step < ns3)
    (hd2 : (episodeWait sc (s''.episode + n) fuel s'').1.done = false) :
    (fit sc ns1 B (TF.stepFreq n) fuel s).fitCount = s.fitCount + ns1 / n
    ∧ (fit sc ns1 B (TF.stepFreq n) fuel s).interactions
        = s.interactions + B + (ns1 / n - 1) * n
    ∧ (episodeWait sc t f s').1.episode = t
    ∧ (episodeWait sc t f s').1.fitCount = s'.fitCount
    ∧ (fitIter sc B (TF.episodeFreq n) ns2 fuel idx s').2 = true
    ∧ (fitIter sc B (TF.episodeFreq n) ns2 fuel idx s').1.fitCount
        = s'.fitCount
    ∧ (fitIter sc B (TF.episodeFreq n) ns3 fuel idx s'').2 = false
    ∧ (fitIter sc B (TF.episodeFreq n) ns3 fuel idx s'').1.episode
        = s''.episode + n
    ∧ (fitIter sc B (TF.episodeFreq n) ns3 fuel idx s'').1.fitCount
        = s''.fitCount + 1 := by
  -- the step-cadence run
  have hstep : (fit sc ns1 B (TF.stepFreq n) fuel s).fitCount
        = s.fitCount + ns1 / n
      ∧ (fit sc ns1 B (TF.stepFreq n) fuel s).interactions
        = s.interactions + B + (ns1 / n - 1) * n := by
    obtain ⟨k, hk⟩ : ∃ k, ns1 / n = k + 1 :=
      ⟨ns1 / n - 1, by omega⟩
    have htot := fitLoop_step_total sc hnv B n (ns1 / n) fuel k s hd
    have hfit : fit sc ns1 B (TF.stepFreq n) fuel s
        = fitLoop sc B (TF.stepFreq n) (ns1 / n) fuel 0 (ns1 / n) s := rfl
    rw [hfit, hk]
    rw [hk] at htot
    exact ⟨htot.1, by rw [htot.2, Nat.add_sub_cancel]⟩
  have hep := episodeWait_completed sc t f s' hw
  have hef := episodeWait_fitCount sc t f s'
  have hbreak : (fitIter sc B (TF.episodeFreq n) ns2 fuel idx s').2 = true
      ∧ (fitIter sc B (TF.episodeFreq n) ns2 fuel idx s').1.fitCount
        = s'.fitCount := by
    unfold fitIter
    simp only [if_neg hidx]
    have : decide (ns2 ≤ (episodeWait sc (s'.episode + n) fuel s').1.step)
        = true := decide_eq_true hbud
    simp only [this, if_true]
    exact ⟨by trivial, episodeWait_fitCount sc (s'.episode + n) fuel s'⟩
  have htrig : (fitIter sc B (TF.episodeFreq n) ns3 fuel idx s'').2 = false
      ∧ (fitIter sc B (TF.episodeFreq n) ns3 fuel idx s'').1.episode
          = s''.episode + n
      ∧ (fitIter sc B (TF.episodeFreq n) ns3 fuel idx s'').1.fitCount
          = s''.fitCount + 1 := by
    unfold fitIter
    simp only [if_neg hidx]
    have hdec : decide (ns3 ≤ (episodeWait sc (s''.episode + n) fuel s'').1.step)
        = false := decide_eq_false (not_le.mpr hnb)
    simp only [hdec, Bool.false_eq_true, if_false, hd2]
    refine ⟨by trivial, ?_, ?_⟩
    · exact episodeWait_completed sc (s''.episode + n) fuel s'' hw2
    · rw [episodeWait_fitCount sc (s''.episode + n) fuel s'']
  exact ⟨hstep.1, hstep.2, hep, hef, hbreak.1, hbreak.2, htrig.1, htrig.2.1,
    htrig.2.2⟩

/-- Witness for C5 on the 3-step-episode single-environment script:
`("step", 1)` with `num_steps = 4` and `batch_size = 3` (four iterations: 3
warmup interactions plus 3), an episode-cadence iteration with an exhausted
budget of 0 that breaks without a `_fit`, and one with budget 10 that
completes its 1-episode wait (3 interactions) and triggers exactly one
`_fit`. -/
theorem fit_cadence_witness :
    (fit scThreeStep 4 3 (TF.stepFreq 1) 5 (initState 1)).fitCount
      = (initState 1).fitCount + 4 / 1
    ∧ (fit scThreeStep 4 3 (TF.stepFreq 1) 5 (initState 1)).interactions
        = (initState 1).interactions + 3 + (4 / 1 - 1) * 1
    ∧ (episodeWait scThreeStep 0 0 (initState 1)).1.episode = 0
    ∧ (episodeWait scThreeStep 0 0 (initState 1)).1.fitCount
        = (initState 1).fitCount
    ∧ (fitIter scThreeStep 3 (TF.episodeFreq 1) 0 5 1 (initState 1)).2 = true
    ∧ (fitIter scThreeStep 3 (TF.episodeFreq 1) 0 5 1 (initState 1)).1.fitCount
        = (initState 1).fitCount
    ∧ (fitIter scThreeStep 3 (TF.episodeFreq 1) 10 5 1 (initState 1)).2 = false
    ∧ (fitIter scThreeStep 3 (TF.episodeFreq 1) 10 5 1 (initState 1)).1.episode
        = (initState 1).episode + 1
    ∧ (fitIter scThreeStep 3 (TF.episodeFreq 1) 10 5 1 (initState 1)).1.fitCount
        = (initState 1).fitCount + 1 :=
  fit_cadence scThreeStep (initState 1) (initState 1) (initState 1)
    3 1 4 0 10 0 0 5 1 (fun _ h => nomatch h) rfl (by decide) (by decide)
    (by decide) (by decide) (by decide) (by decide) (by decide)

/-- C6: the deep-agent and evolution orchestrators do not share working
termination machinery — `BaseEvolutionAgent.step_env` sets the flag on a
callback veto, but `BaseEvolutionAgent.fit` never consults it: with a
callback that always vetoes, `("step", 1)` and `num_steps = 3`, the flag is
true yet the fit loop still completes all 3 iterations, performing 3
environment interactions and 3 `_fit` calls after the first veto, with the
step counter stuck at 0. -/
theorem evolution_fit_ignores_termination_flag :
    (evoFit scVeto 3 (TF.stepFreq 1) 5 evoInitState).done = true
    ∧ (evoFit scVeto 3 (TF.stepFreq 1) 5 evoInitState).interactions = 3
    ∧ (evoFit scVeto 3 (TF.stepFreq 1) 5 evoInitState).fitCount = 3
    ∧ (evoFit scVeto 3 (TF.stepFreq 1) 5 evoInitState).step = 0 := by
  decide

/-- C9 counterexample: single environment with 3-step episodes,
`("episode", 1)` cadence, `batch_size = 3`, `num_steps = 6`: the number of
`_fit` invocations is not 2 — after the second episode completes, the step
counter (6) has exhausted the budget and the loop breaks before the second
training trigger. -/
theorem fit_episode_scenario_not_two_triggers :
    ¬((fit scThreeStep 6 3 (TF.episodeFreq 1) 20 (initState 1)).fitCount = 2
      ∧ (fit scThreeStep 6 3 (TF.episodeFreq 1) 20 (initState 1)).episode = 2) := by
  decide

/-- C9 amended: in that scenario exactly one `_fit` invocation occurs (the
one after warmup) and the episode counter ends at 2. -/
theorem fit_episode_scenario_one_trigger :
    (fit scThreeStep 6 3 (TF.episodeFreq 1) 20 (initState 1)).fitCount = 1
    ∧ (fit scThreeStep 6 3 (TF.episodeFreq 1) 20 (initState 1)).episode = 2 := by
  decide

end Anvil
